import Mathlib

/-!
Verification development for the Pickem week-lifecycle pipeline.

The definitions below are a shallow embedding of the TypeScript route
handlers and the picks-page `save` function:

* `src/app/api/advance-week/route.ts` — `mustBeCron`, `mapStatus`,
  `syncGamesInline`, `syncWeekInline`, `POST` (here `advanceWeek`);
* `src/app/api/grade-week/route.ts` — the grading pass (`gradePick`,
  `gradeWrite`, `gradePOST`);
* `src/app/api/sync-week/route.ts` — `POST` (here `syncWeekPOST`);
* `src/app/picks/page.tsx` — the `save` handler (here `save`).

Modelling conventions: ISO timestamps are integers (epoch milliseconds);
the one supabase league is a single `LeagueRow`; each store table is the
league-scoped list of its rows; Postgres `upsert(..., onConflict*)` is
`upsertBy`, which replaces every row whose conflict key matches and
appends rows with fresh keys; provider (ESPN) fetches are oracle inputs
of type `FetchResult`.  Store reads and writes themselves never fail in
the model; provider failure is represented explicitly.
-/

namespace Pickem

/-- JS `String.prototype.trim()`: strip leading and trailing whitespace.
Written over the character list so it reduces definitionally (the core
`String.trim` is defined by well-founded recursion). -/
def jsTrim (s : String) : String :=
  ⟨((s.data.dropWhile Char.isWhitespace).reverse.dropWhile Char.isWhitespace).reverse⟩

/-- Postgres-style upsert of a single row: if some stored row has the same
conflict key, every such row is replaced by `r`; otherwise `r` is appended. -/
def upsertOneBy {α κ : Type} [DecidableEq κ] (key : α → κ) (s : List α) (r : α) : List α :=
  if s.any (fun x => decide (key x = key r)) then
    s.map (fun x => if key x = key r then r else x)
  else s ++ [r]

/-- Upsert of a list of rows, row by row in order (supabase `upsert(rows)`). -/
def upsertBy {α κ : Type} [DecidableEq κ] (key : α → κ) (s : List α) (rows : List α) : List α :=
  rows.foldl (upsertOneBy key) s

/-- Game status enum of the `games` table: scheduled | inprogress | final. -/
inductive GStatus
  | scheduled
  | inprogress
  | final
deriving DecidableEq, Repr

/-- A row of the `games` table, scoped to the one league
(columns `league_id` and `provider` of the source are fixed per deployment;
`provider` is kept, `league_id` is the implicit scope). -/
structure GameRow where
  season_year : Nat
  week_number : Nat
  provider : String
  game_id : String
  home_abbr : String
  away_abbr : String
  kickoff_time : Int
  status : GStatus
  home_score : Option Int
  away_score : Option Int
  winner_abbr : Option String
deriving DecidableEq, Repr

/-- Conflict key of the games upsert: `onConflict: "league_id,season_year,game_id"`
(league is the implicit scope). -/
def gameKey (g : GameRow) : Nat × String := (g.season_year, g.game_id)

/-- The `games` rows of one (season, week): every route filters with
`.eq("season_year", ...).eq("week_number", ...)`. -/
def weekGames (store : List GameRow) (season week : Nat) : List GameRow :=
  store.filter (fun g => g.season_year == season && g.week_number == week)

/-- A row of the `weeks` table (league-scoped). -/
structure WeekRow where
  season_year : Nat
  week_number : Nat
  picks_required : Nat
  lock_time : Int
  reveal_time : Int
deriving DecidableEq, Repr

/-- Conflict key of the weeks upsert: `onConflict: "league_id,season_year,week_number"`. -/
def weekKey (w : WeekRow) : Nat × Nat := (w.season_year, w.week_number)

/-- A row of the `picks` table, scoped to the one league and season:
key columns `week_number`, `user_id`, `slot`, payload `team_abbr`. -/
structure Pick where
  user_id : String
  week_number : Nat
  slot : Nat
  team_abbr : String
deriving DecidableEq, Repr

/-- Conflict key of the picks upsert:
`onConflict: "league_id,season_year,week_number,user_id,slot"`. -/
def pickKey (p : Pick) : Nat × String × Nat := (p.week_number, p.user_id, p.slot)

/-- Graded outcome of one pick. -/
inductive PickOutcome
  | win
  | loss
  | pending
deriving DecidableEq, Repr

/-- A row of the `pick_results` table, scoped to one (league, season, week). -/
structure PickResultRow where
  user_id : String
  slot : Nat
  team_abbr : String
  result : PickOutcome
deriving DecidableEq, Repr

/-- Conflict key of the pick_results upsert:
`onConflict: "league_id,season_year,week_number,user_id,slot"`. -/
def prKey (r : PickResultRow) : String × Nat := (r.user_id, r.slot)

/-! ### Grading (grade-week route, step 4)

The source iterates over the week's game rows once:
`if (g.status !== "final") allFinal = false; if (g.winner_abbr) winners.add(g.winner_abbr);`
Note that `allFinal` starts at `true` (an empty week is vacuously all
final) and that `if (g.winner_abbr)` is a JS truthiness test, so a null
or empty-string `winner_abbr` is excluded from the winners set. -/

/-- The JS-truthy winner of a game row: `winner_abbr` when non-null and
non-empty, else nothing (`if (g.winner_abbr) winners.add(g.winner_abbr)`). -/
def truthyWinner (g : GameRow) : Option String :=
  match g.winner_abbr with
  | some s => if s = "" then none else some s
  | none => none

/-- The winners set of a week's games, as collected by the grading loop. -/
def winnersOf (games : List GameRow) : List String :=
  games.filterMap truthyWinner

/-- `allFinal` as computed by the grading loop: initialized to `true`,
falsified by any non-final row — hence `true` on an empty list. -/
def allFinalOf (games : List GameRow) : Bool :=
  games.all (fun g => g.status == GStatus.final)

/-- The per-pick result of the grading pass:
pending unless `allFinal`; then win iff the picked team is in the winners set. -/
def gradePick (games : List GameRow) (p : Pick) : PickOutcome :=
  if allFinalOf games then
    if (winnersOf games).contains p.team_abbr then .win else .loss
  else .pending

/-- The pick_results row computed for one pick. -/
def resultRow (games : List GameRow) (p : Pick) : PickResultRow :=
  { user_id := p.user_id
    slot := p.slot
    team_abbr := p.team_abbr
    result := gradePick games p }

/-- The write step of the grading pass: compute one result per pick and,
when at least one result exists, upsert them into `pick_results`
(`if (results.length > 0) ... .upsert(results, ...)`).  The source performs
no delete on `pick_results`. -/
def gradeWrite (stored : List PickResultRow) (games : List GameRow) (picks : List Pick) :
    List PickResultRow :=
  let results := picks.map (resultRow games)
  if results.length > 0 then upsertBy prKey stored results else stored

/-- Modelled from the spec wording of the claim (not from the source):
`allFinal` additionally requires at least one game to exist, and the grading
is a full replace.  Per-pick result under that reading. -/
def gradePickClaim (games : List GameRow) (p : Pick) : PickOutcome :=
  if !games.isEmpty && allFinalOf games then
    if ((games.filter (fun g => g.status == GStatus.final)).filterMap
        (fun g => g.winner_abbr)).contains p.team_abbr then .win else .loss
  else .pending

/-- Modelled from the spec wording of the claim (not from the source):
a grading pass that first deletes all old results of the week and then
writes exactly the computed set — a full replace. -/
def gradeWriteClaim (_stored : List PickResultRow) (games : List GameRow) (picks : List Pick) :
    List PickResultRow :=
  picks.map (resultRow games)

/-! ### Provider payload model (ESPN scoreboard, advance-week route)

`fetchEspnScoreboard` returns either a non-2xx failure or a JSON event
list; `syncGamesInline` walks `events`, takes `competitions[0]`, finds the
home/away competitors, and skips the event unless both have a truthy
`team.abbreviation`.  The two-level optional chain `comp.status?.type`
is modelled as one `Option StatusTypeInfo`. -/

/-- One entry of `comp.competitors`: `homeAway`, `team.abbreviation`
(absent or empty both JS-falsy), and the optional numeric score. -/
structure Competitor where
  homeAway : String
  abbr : Option String
  score : Option Int
deriving DecidableEq, Repr

/-- `comp.status?.type`: the `state` string (`pre` / `in` / `post`)
and the `completed` flag (`!!statusType?.completed`). -/
structure StatusTypeInfo where
  state : Option String
  completed : Bool
deriving DecidableEq, Repr

/-- One entry of `ev.competitions`. -/
structure Competition where
  competitors : List Competitor
  statusInfo : Option StatusTypeInfo
  date : Int
deriving DecidableEq, Repr

/-- One provider event. -/
structure Event where
  id : String
  competitions : List Competition
deriving DecidableEq, Repr

/-- Outcome of `fetchEspnScoreboard`: a 2xx body with its event list, or a
non-2xx failure (status, error text). -/
inductive FetchResult
  | ok (events : List Event)
  | fail (status : Nat) (msg : String)
deriving DecidableEq, Repr

/-- `mapStatus`: state `"in"` is inprogress, `"post"` is final, anything
else (including a missing state) is scheduled. -/
def mapStatus (state : Option String) : GStatus :=
  if state = some "in" then .inprogress
  else if state = some "post" then .final
  else .scheduled

/-- A JS-truthy string: non-null and non-empty. -/
def truthyStr : Option String → Option String
  | some s => if s = "" then none else some s
  | none => none

/-- `statusType?.state` of a competition. -/
def compState (comp : Competition) : Option String :=
  comp.statusInfo.bind (fun s => s.state)

/-- `!!statusType?.completed` of a competition. -/
def compCompleted (comp : Competition) : Bool :=
  (comp.statusInfo.map (fun s => s.completed)).getD false

/-- The `winner_abbr` computation of `syncGamesInline`: only when the
provider marks the competition `completed` and both scores are present;
the higher score's abbreviation wins, equal scores leave it null. -/
def compWinner (comp : Competition) (home away : Competitor)
    (home_abbr away_abbr : String) : Option String :=
  if compCompleted comp then
    match home.score, away.score with
    | some hs, some asc =>
      if hs > asc then some home_abbr
      else if asc > hs then some away_abbr
      else none
    | _, _ => none
  else none

/-- The games-table row built from one provider event by `syncGamesInline`,
or nothing when the event is skipped (no competition, or a missing/empty
home or away abbreviation).  `status` comes from `mapStatus` on `state`. -/
def eventRow (provider : String) (season week : Nat) (ev : Event) : Option GameRow :=
  match ev.competitions.head? with
  | none => none
  | some comp =>
    match comp.competitors.find? (fun c => c.homeAway == "home"),
          comp.competitors.find? (fun c => c.homeAway == "away") with
    | some home, some away =>
      match truthyStr home.abbr, truthyStr away.abbr with
      | some home_abbr, some away_abbr =>
        some { season_year := season
               week_number := week
               provider := provider
               game_id := ev.id
               home_abbr := home_abbr
               away_abbr := away_abbr
               kickoff_time := comp.date
               status := mapStatus (compState comp)
               home_score := home.score
               away_score := away.score
               winner_abbr := compWinner comp home away home_abbr away_abbr }
      | _, _ => none
    | _, _ => none

/-- All rows built from a provider event list (the `rows` array of
`syncGamesInline`). -/
def espnRows (provider : String) (season week : Nat) (events : List Event) : List GameRow :=
  events.filterMap (eventRow provider season week)

/-- Result object of `syncGamesInline`: `ok` flag and `upserted` count. -/
structure SyncGamesOut where
  ok : Bool
  upserted : Nat
deriving DecidableEq, Repr

/-- `syncGamesInline`: on a fetch failure or an empty row list, report a
retry-later outcome and leave the games table alone; otherwise upsert the
rows on (league, season_year, game_id). -/
def syncGamesInline (fetched : FetchResult) (games : List GameRow) (season week : Nat) :
    SyncGamesOut × List GameRow :=
  match fetched with
  | .fail _ _ => (⟨false, 0⟩, games)
  | .ok events =>
    let rows := espnRows "espn" season week events
    if rows.isEmpty then (⟨false, 0⟩, games)
    else (⟨true, rows.length⟩, upsertBy gameKey games rows)

/-- Result object of `syncWeekInline` (only the ok flag matters to Advance). -/
structure SyncWeekOut where
  ok : Bool
deriving DecidableEq, Repr

/-- `syncWeekInline`: picks_required is 1 from week 17 on, else 2; the
lock and reveal time are the earliest kickoff among the week's games
(`order by kickoff_time asc limit 1`); with no games it reports a
retry-later outcome without touching the weeks table. -/
def syncWeekInline (games : List GameRow) (weeks : List WeekRow) (season week : Nat) :
    SyncWeekOut × List WeekRow :=
  let picks_required := if week ≥ 17 then 1 else 2
  match ((weekGames games season week).map (fun g => g.kickoff_time)).min? with
  | none => (⟨false⟩, weeks)
  | some lock =>
    (⟨true⟩, upsertBy weekKey weeks
      [{ season_year := season, week_number := week, picks_required := picks_required
         lock_time := lock, reveal_time := lock }])

/-! ### Trigger authorization and the Advance handler -/

/-- The two request headers the cron guard reads. -/
structure Headers where
  xVercelCron : Option String
  xCronSecret : Option String
deriving DecidableEq, Repr

/-- JS strict equality between `headers.get(...)` (string or null) and
`process.env.CRON_SECRET` (string or undefined): true only when both are
present and equal. -/
def jsStrictEq : Option String → Option String → Bool
  | some a, some b => a == b
  | _, _ => false

/-- `mustBeCron` of the advance-week and sync-week routes: pass when the
`x-vercel-cron` header is `"1"` or the `x-cron-secret` header strictly
equals the configured secret; otherwise the handler throws Unauthorized. -/
def mustBeCronOk (h : Headers) (secret : Option String) : Bool :=
  (h.xVercelCron == some "1") || jsStrictEq h.xCronSecret secret

/-- The one `leagues` row the handlers read (`id` is the implicit scope). -/
structure LeagueRow where
  season_year : Nat
  current_week : Nat
deriving DecidableEq, Repr

/-- The league-scoped store slice the Advance handler touches. -/
structure AdvanceState where
  league : LeagueRow
  games : List GameRow
  weeks : List WeekRow
deriving DecidableEq, Repr

/-- Response of the Advance handler, as far as the lifecycle is concerned. -/
inductive AdvanceRes
  | errorRes (msg : String) (code : Nat)
  | notAdvanced (reason : String)
  | advanced (toWeek : Nat)
deriving DecidableEq, Repr

/-- The advance-week `POST` handler.  `provCheck` is the provider fetch
used for the next-week availability check; `provSync` is the (separate)
fetch performed inside `syncGamesInline`.  The league pointer is updated
only at the very end, after the all-final check, the provider check, and
both inline syncs succeed. -/
def advanceWeek (h : Headers) (secret : Option String) (league_id : String)
    (st : AdvanceState) (provCheck provSync : FetchResult) : AdvanceRes × AdvanceState :=
  if !(mustBeCronOk h secret) then (.errorRes "Unauthorized" 401, st)
  else if jsTrim league_id = "" then (.errorRes "Missing league_id" 400, st)
  else
    let lg := st.league
    if lg.current_week ≥ 18 then (.notAdvanced "Already week 18", st)
    else
      let curGames := weekGames st.games lg.season_year lg.current_week
      let allFinal := !curGames.isEmpty && curGames.all (fun g => g.status == GStatus.final)
      if !allFinal then
        (.notAdvanced (if curGames.isEmpty then "No games found for current week"
                       else "Not all games final"), st)
      else
        let next := lg.current_week + 1
        match provCheck with
        | .fail _ _ => (.notAdvanced "Provider check failed; will retry later", st)
        | .ok events =>
          if events.isEmpty then
            (.notAdvanced "Next week has no games at provider (ESPN) - not advancing", st)
          else
            let sg := syncGamesInline provSync st.games lg.season_year next
            if !sg.1.ok then (.notAdvanced "sync games retry later", { st with games := sg.2 })
            else
              let sw := syncWeekInline sg.2 st.weeks lg.season_year next
              if !sw.1.ok then (.notAdvanced "sync week retry later", { st with games := sg.2 })
              else
                (.advanced next,
                 { league := { season_year := lg.season_year, current_week := next }
                   games := sg.2
                   weeks := sw.2 })

/-! ### The standalone sync-week handler -/

/-- Request body of sync-week: league id, optional season/week overrides,
and the explicit fallback flag (`Boolean(body.allow_fallback_lock ?? false)`). -/
structure SyncWeekBody where
  league_id : String
  season_year : Option Nat
  week_number : Option Nat
  allow_fallback_lock : Bool
deriving DecidableEq, Repr

/-- Response of the sync-week handler. -/
inductive SyncWeekRes
  | unauthorized
  | badRequest (msg : String)
  | conflictRes (msg : String)
  | okRes (picks_required : Nat) (lock_time : Int)
deriving DecidableEq, Repr

/-- The sync-week `POST` handler.  With no games for the target week and
no fallback flag it returns 409 and writes nothing; with the flag it falls
back to `now + 24h` as the lock time.  `now` is `Date.now()` in epoch ms. -/
def syncWeekPOST (h : Headers) (secret : Option String) (body : SyncWeekBody)
    (lg : LeagueRow) (games : List GameRow) (weeks : List WeekRow) (now : Int) :
    SyncWeekRes × List WeekRow :=
  if !(mustBeCronOk h secret) then (.unauthorized, weeks)
  else if jsTrim body.league_id = "" then (.badRequest "Missing league_id", weeks)
  else
    let season := body.season_year.getD lg.season_year
    let week := body.week_number.getD lg.current_week
    let picks_required := if week ≥ 17 then 1 else 2
    let firstKick := ((weekGames games season week).map (fun g => g.kickoff_time)).min?
    if firstKick.isNone && !body.allow_fallback_lock then
      (.conflictRes "No games found for league/week; refusing to create week config.", weeks)
    else
      let lock := firstKick.getD (now + 86400000)
      (.okRes picks_required lock,
       upsertBy weekKey weeks
         [{ season_year := season, week_number := week, picks_required := picks_required
            lock_time := lock, reveal_time := lock }])

/-! ### The grade-week handler

The route file defines `mustBeCron` twice (once at module level, once
nested inside `POST`) but `POST` never invokes either: the handler starts
with `getLeagueContext()` straight away.  The handler is therefore
modelled with a `Headers` argument it never reads. -/

/-- `mustBeCron` as written at the top of grade-week/route.ts: requires the
secret to be configured and the header to match.  Defined but never called
by the handler. -/
def gradeMustBeCronOk (h : Headers) (secret : Option String) : Bool :=
  match secret with
  | none => false
  | some s => jsStrictEq h.xCronSecret (some s)

/-- One entry of the hard-coded `stubResults` list (status is always final). -/
structure StubResult where
  game_id : String
  home_score : Int
  away_score : Int
deriving DecidableEq, Repr

/-- The hard-coded stub scores the handler writes into the games table. -/
def stubResults : List StubResult :=
  [⟨"game1", 24, 20⟩, ⟨"game2", 17, 28⟩]

/-- The winner computed for one stub result: looked up among the week's
rows loaded before the update; null when the game id is unknown there or
the scores tie. -/
def stubWinner (weekGs : List GameRow) (r : StubResult) : Option String :=
  match weekGs.find? (fun g => g.game_id == r.game_id) with
  | none => none
  | some g =>
    if r.home_score = r.away_score then none
    else if r.home_score > r.away_score then some g.home_abbr
    else some g.away_abbr

/-- The `UPDATE games SET status, scores, winner WHERE game_id = r.game_id`
step for one stub result (league/season scope implicit; no row is added). -/
def applyStub (weekGs : List GameRow) (games : List GameRow) (r : StubResult) : List GameRow :=
  games.map (fun g =>
    if g.game_id == r.game_id then
      { g with status := GStatus.final
               home_score := some r.home_score
               away_score := some r.away_score
               winner_abbr := stubWinner weekGs r }
    else g)

/-- The league-scoped store slice the grade-week handler touches. -/
structure GradeState where
  games : List GameRow
  picks : List Pick
  pick_results : List PickResultRow
deriving DecidableEq, Repr

/-- Response of the grade-week handler. -/
inductive GradeRes
  | badRequest (msg : String)
  | okRes (resultsWritten : Nat) (allFinal : Bool)
deriving DecidableEq, Repr

/-- The grade-week `POST` handler.  Note the missing authorization gate:
the `h` argument is accepted and ignored, exactly as the route ignores the
request headers.  Flow: validate the league context, apply the stub game
updates, reload the week's games, grade every pick of the week, upsert
the results. -/
def gradePOST (_h : Headers) (_secret : Option String) (league_id : String)
    (season week : Nat) (st : GradeState) : GradeRes × GradeState :=
  if league_id = "" || season == 0 || week == 0 then
    (.badRequest "Missing league_id / season_year / week_number", st)
  else
    let weekGs := weekGames st.games season week
    let games1 := stubResults.foldl (applyStub weekGs) st.games
    let weekGs1 := weekGames games1 season week
    let results := (st.picks.filter (fun p => p.week_number == week)).map (resultRow weekGs1)
    let pr1 := gradeWrite st.pick_results weekGs1 (st.picks.filter (fun p => p.week_number == week))
    (.okRes results.length (allFinalOf weekGs1),
     { games := games1, picks := st.picks, pick_results := pr1 })

/-! ### The picks-page save handler

Both copies of `save` in `src/app/picks/page.tsx` (the lines 224–377
version and the lines 883–1038 version) contain the identical bye-path /
pick-path logic embedded here.  Neither reads the clock or the week's
`lock_time`: the lock is enforced only by the page disabling the save
button and the bye checkbox when its `locked` flag is set. -/

/-- A row of the `byes` table, scoped to the one league and season.  The
spec's uniqueness rule (at most one bye per user per season) is the
constraint whose violation raises the duplicate-insert error the source
swallows; the schema itself is not in the repository. -/
structure ByeRow where
  user_id : String
  week_number : Nat
deriving DecidableEq, Repr

/-- Insert of a bye row.  Modelled from the spec: the byes table is unique
per (league, season_year, user_id), a duplicate insert errors, and the
source treats a duplicate error as success — so the row is simply not
added when the user already has a bye this season. -/
def byeInsert (byes : List ByeRow) (u : String) (w : Nat) : List ByeRow :=
  if byes.any (fun b => b.user_id == u) then byes else byes ++ [⟨u, w⟩]

/-- The league/season-scoped store slice `save` touches. -/
structure PicksStore where
  picks : List Pick
  byes : List ByeRow
deriving DecidableEq, Repr

/-- The client page state `save` closes over. -/
structure PageState where
  current_week : Nat
  picks_required : Nat
  lock_time : Int
  user_id : String
  wantsBye : Bool
  byeExistsThisWeek : Bool
  pick1 : String
  pick2 : String
deriving DecidableEq, Repr

/-- Outcome of one `save` run. -/
inductive SaveRes
  | savedBye
  | savedPicks
  | errRes (msg : String)
deriving DecidableEq, Repr

/-- The picks-page `save` handler.  Bye path: weeks 17–18 are rejected,
the bye is inserted (duplicate tolerated), and the user's picks for the
week are deleted.  Pick path: an existing bye for the week is deleted
first, then slot validation runs, then the pick rows are upserted and a
stray slot-2 row is deleted on a 1-pick week. -/
def save (st : PageState) (store : PicksStore) : SaveRes × PicksStore :=
  if st.wantsBye then
    if st.current_week > 16 then (.errRes "Bye is only allowed in weeks 1-16.", store)
    else
      let byes1 := byeInsert store.byes st.user_id st.current_week
      let picks1 := store.picks.filter
        (fun p => !(p.user_id == st.user_id && p.week_number == st.current_week))
      (.savedBye, ⟨picks1, byes1⟩)
  else
    let store1 :=
      if st.byeExistsThisWeek then
        { store with byes := (store.byes.filter
            (fun b => !(b.user_id == st.user_id && b.week_number == st.current_week))) }
      else store
    let slot1 := jsTrim st.pick1
    let slot2 := jsTrim st.pick2
    if slot1 = "" then (.errRes "Pick 1 is required.", store1)
    else if st.picks_required == 2 && slot2 == "" then (.errRes "Pick 2 is required.", store1)
    else if st.picks_required == 2 && slot1 == slot2 then
      (.errRes "Pick 1 and Pick 2 must be different teams.", store1)
    else
      let rows := ({ user_id := st.user_id, week_number := st.current_week
                     slot := 1, team_abbr := slot1 } : Pick) ::
                  (if st.picks_required == 2 then
                     [{ user_id := st.user_id, week_number := st.current_week
                        slot := 2, team_abbr := slot2 }]
                   else [])
      let picks2 := upsertBy pickKey store1.picks rows
      let picks3 :=
        if st.picks_required == 1 then
          picks2.filter (fun p =>
            !(p.user_id == st.user_id && p.week_number == st.current_week && p.slot == 2))
        else picks2
      (.savedPicks, ⟨picks3, store1.byes⟩)

/-- The page's `locked` flag: current time at or past the week's lock time
(`Date.now() >= new Date(weekCfg.lock_time).getTime()`).  Computed by the
page, read only by the UI `disabled` attributes — never by `save`. -/
def lockedFlag (now lock_time : Int) : Bool :=
  now ≥ lock_time

/-! ### Lemmas about the upsert model -/

section UpsertLemmas

variable {α κ : Type} [DecidableEq κ] (key : α → κ)

/-- Row `r` is stored and is the only value at its conflict key. -/
def keyCovered (s : List α) (r : α) : Prop :=
  r ∈ s ∧ ∀ x ∈ s, key x = key r → x = r

theorem mem_upsertOneBy_self (s : List α) (r : α) : r ∈ upsertOneBy key s r := by
  unfold upsertOneBy
  split
  next hany =>
    rcases List.any_eq_true.mp hany with ⟨x, hx, hkx⟩
    have hrepl : (if key x = key r then r else x) = r := by
      simp [of_decide_eq_true hkx]
    have hmm := List.mem_map_of_mem (fun x => if key x = key r then r else x) hx
    simp only at hmm
    rwa [hrepl] at hmm
  next => exact List.mem_append_right _ (List.mem_singleton_self r)

theorem key_unique_upsertOneBy (s : List α) (r : α) :
    ∀ x ∈ upsertOneBy key s r, key x = key r → x = r := by
  intro x hx hk
  unfold upsertOneBy at hx
  split at hx
  · rcases List.mem_map.mp hx with ⟨y, hy, hxy⟩
    by_cases hky : key y = key r
    · simpa [hky] using hxy.symm
    · rw [if_neg hky] at hxy
      exact absurd (hxy ▸ hk) hky
  next hany =>
    rcases List.mem_append.mp hx with h1 | h1
    · exfalso
      have : ¬ (key x = key r) := by
        intro hxe
        exact hany (List.any_eq_true.mpr ⟨x, h1, decide_eq_true hxe⟩)
      exact this hk
    · simpa using h1

theorem keyCovered_upsertOneBy_self (s : List α) (r : α) :
    keyCovered key (upsertOneBy key s r) r :=
  ⟨mem_upsertOneBy_self key s r, key_unique_upsertOneBy key s r⟩

theorem keyCovered_upsertOneBy_of_ne (s : List α) (r z : α)
    (h : keyCovered key s z) (hne : key z ≠ key r) :
    keyCovered key (upsertOneBy key s r) z := by
  obtain ⟨hmem, huniq⟩ := h
  unfold upsertOneBy
  split
  · refine ⟨?_, ?_⟩
    · have hrepl : (if key z = key r then r else z) = z := by simp [hne]
      exact hrepl ▸ List.mem_map_of_mem _ hmem
    · intro x hx hk
      rcases List.mem_map.mp hx with ⟨y, hy, hxy⟩
      by_cases hky : key y = key r
      · rw [if_pos hky] at hxy
        exact absurd (hxy ▸ hk) (Ne.symm hne)
      · rw [if_neg hky] at hxy
        exact huniq x (hxy ▸ hy) hk
  · refine ⟨List.mem_append_left _ hmem, ?_⟩
    intro x hx hk
    rcases List.mem_append.mp hx with h1 | h1
    · exact huniq x h1 hk
    · have hxr : x = r := by simpa using h1
      exact absurd (hxr ▸ hk) (Ne.symm hne)

theorem keyCovered_upsertBy_of_ne (rows : List α) (s : List α) (z : α)
    (h : keyCovered key s z) (hne : ∀ r ∈ rows, key r ≠ key z) :
    keyCovered key (upsertBy key s rows) z := by
  induction rows generalizing s with
  | nil => exact h
  | cons a rs ih =>
    exact ih _
      (keyCovered_upsertOneBy_of_ne key s a z h
        (Ne.symm (hne a (List.mem_cons_self a rs))))
      (fun r hr => hne r (List.mem_cons_of_mem a hr))

theorem keyCovered_upsertBy (rows : List α) (s : List α)
    (hnd : (rows.map key).Nodup) :
    ∀ r ∈ rows, keyCovered key (upsertBy key s rows) r := by
  induction rows generalizing s with
  | nil => intro r hr; cases hr
  | cons a rs ih =>
    intro r hr
    have hnotin : key a ∉ rs.map key := (List.nodup_cons.mp hnd).1
    have hnd2 : (rs.map key).Nodup := (List.nodup_cons.mp hnd).2
    rcases List.mem_cons.mp hr with heq | hmem
    · subst heq
      exact keyCovered_upsertBy_of_ne key rs (upsertOneBy key s r) r
        (keyCovered_upsertOneBy_self key s r)
        (fun r' hr' hkeq => hnotin (hkeq ▸ List.mem_map_of_mem key hr'))
    · exact ih _ hnd2 r hmem

theorem upsertOneBy_eq_self_of_covered (s : List α) (r : α)
    (h : keyCovered key s r) : upsertOneBy key s r = s := by
  obtain ⟨hmem, huniq⟩ := h
  unfold upsertOneBy
  rw [if_pos (List.any_eq_true.mpr ⟨r, hmem, decide_eq_true rfl⟩)]
  calc s.map (fun x => if key x = key r then r else x)
      = s.map id := by
        apply List.map_congr_left
        intro x hx
        by_cases hk : key x = key r
        · simp [hk, huniq x hx hk]
        · simp [hk]
    _ = s := List.map_id s

theorem upsertBy_eq_self_of_covered (rows : List α) (t : List α)
    (hcov : ∀ r ∈ rows, keyCovered key t r) :
    upsertBy key t rows = t := by
  induction rows with
  | nil => rfl
  | cons a rs ih =>
    have h1 : upsertOneBy key t a = t :=
      upsertOneBy_eq_self_of_covered key t a (hcov a (List.mem_cons_self a rs))
    show upsertBy key (upsertOneBy key t a) rs = t
    rw [h1]
    exact ih (fun r hr => hcov r (List.mem_cons_of_mem a hr))

theorem upsertBy_idem (s : List α) (rows : List α)
    (hnd : (rows.map key).Nodup) :
    upsertBy key (upsertBy key s rows) rows = upsertBy key s rows :=
  upsertBy_eq_self_of_covered key rows _ (keyCovered_upsertBy key rows s hnd)

theorem mem_upsertOneBy_of_ne (s : List α) (r x : α)
    (hx : x ∈ s) (hne : key x ≠ key r) : x ∈ upsertOneBy key s r := by
  unfold upsertOneBy
  split
  · have hrepl : (if key x = key r then r else x) = x := by simp [hne]
    exact hrepl ▸ List.mem_map_of_mem _ hx
  · exact List.mem_append_left _ hx

theorem mem_upsertBy_of_ne (rows : List α) (s : List α) (x : α)
    (hx : x ∈ s) (hne : ∀ r ∈ rows, key r ≠ key x) : x ∈ upsertBy key s rows := by
  induction rows generalizing s with
  | nil => exact hx
  | cons a rs ih =>
    exact ih _
      (mem_upsertOneBy_of_ne key s a x hx (Ne.symm (hne a (List.mem_cons_self a rs))))
      (fun r hr => hne r (List.mem_cons_of_mem a hr))

end UpsertLemmas

/-! ### Lemmas about the provider row builder -/

/-- The `completed` flag of the event's first competition, as the source
reads it (`!!statusType?.completed`). -/
def eventCompleted (ev : Event) : Bool :=
  match ev.competitions.head? with
  | some comp => (comp.statusInfo.map (fun s => s.completed)).getD false
  | none => false

theorem truthyWinner_eq_some {g : GameRow} {t : String}
    (h : truthyWinner g = some t) : g.winner_abbr = some t := by
  unfold truthyWinner at h
  split at h
  next s heq =>
    split at h
    · exact Option.noConfusion h
    · exact heq.trans h
  next heq => exact Option.noConfusion h

/-- A tie of present-or-absent scores leaves the computed winner null. -/
theorem compWinner_tie (comp : Competition) (home away : Competitor)
    (a b : String) (h : home.score = away.score) :
    compWinner comp home away a b = none := by
  unfold compWinner
  split
  · split
    next hs asc hh ha =>
      have : hs = asc := by
        rw [hh, ha] at h
        exact Option.some.inj h
      subst this
      simp
    next => rfl
  · rfl

/-- A non-null computed winner forces a completed competition, two present
scores that differ, and a winner drawn from the two abbreviations. -/
theorem compWinner_some (comp : Competition) (home away : Competitor)
    (a b t : String) (h : compWinner comp home away a b = some t) :
    (∃ hs asc, home.score = some hs ∧ away.score = some asc ∧ hs ≠ asc) ∧
    compCompleted comp = true ∧ (t = a ∨ t = b) := by
  unfold compWinner at h
  split at h
  next hcomp =>
    split at h
    next hs asc hh ha =>
      refine ⟨⟨hs, asc, hh, ha, ?_⟩, hcomp, ?_⟩
      · by_contra heq
        subst heq
        simp at h
      · by_cases hlt : hs > asc
        · rw [if_pos hlt] at h
          exact Or.inl (Option.some.inj h).symm
        · rw [if_neg hlt] at h
          by_cases hgt : asc > hs
          · rw [if_pos hgt] at h
            exact Or.inr (Option.some.inj h).symm
          · rw [if_neg hgt] at h
            exact Option.noConfusion h
    next => exact Option.noConfusion h
  next => exact Option.noConfusion h

/-- Soundness of the row builder's winner computation: a tie leaves
`winner_abbr` null, and a non-null winner forces distinct present scores,
a provider-completed competition, and a winner drawn from the two teams. -/
theorem eventRow_winner_sound (provider : String) (season week : Nat) (ev : Event)
    (row : GameRow) (h : eventRow provider season week ev = some row) :
    (row.home_score = row.away_score → row.winner_abbr = none) ∧
    (∀ t, row.winner_abbr = some t →
      (∃ hs asc, row.home_score = some hs ∧ row.away_score = some asc ∧ hs ≠ asc) ∧
      eventCompleted ev = true ∧ (t = row.home_abbr ∨ t = row.away_abbr)) := by
  unfold eventRow at h
  split at h
  · exact Option.noConfusion h
  next comp hcomp =>
    split at h
    next home away hhome haway =>
      split at h
      next home_abbr away_abbr hta htb =>
        have hrow := (Option.some.inj h).symm
        subst hrow
        have hev : eventCompleted ev = compCompleted comp := by
          unfold eventCompleted compCompleted
          rw [hcomp]
        refine ⟨fun hteq => compWinner_tie comp home away home_abbr away_abbr hteq,
                fun t ht => ?_⟩
        have hw := compWinner_some comp home away home_abbr away_abbr t ht
        exact ⟨hw.1, hev ▸ hw.2.1, hw.2.2⟩
      next => exact Option.noConfusion h
    next => exact Option.noConfusion h

/-- Invariant carried by every row the sync pass builds. -/
theorem espnRows_winner_sound (provider : String) (season week : Nat)
    (events : List Event) (row : GameRow)
    (hmem : row ∈ espnRows provider season week events) :
    (row.home_score = row.away_score → row.winner_abbr = none) ∧
    (∀ t, row.winner_abbr = some t →
      (∃ hs asc, row.home_score = some hs ∧ row.away_score = some asc ∧ hs ≠ asc) ∧
      (t = row.home_abbr ∨ t = row.away_abbr)) := by
  rcases List.mem_filterMap.mp hmem with ⟨ev, _, hev⟩
  have hs := eventRow_winner_sound provider season week ev row hev
  exact ⟨hs.1, fun t ht => ⟨(hs.2 t ht).1, (hs.2 t ht).2.2⟩⟩

/-! ## Claim C2 — grading rule

The claim's `allFinal` requires at least one game to exist; the source's
`allFinal` starts at `true` and an empty game list leaves it true, so with
zero game rows the source grades every pick win/loss (loss, the winners
set being empty) where the claim's reading demands pending. -/

/-- C2 (corrected, amended form): a Pick Result is pending iff the source's
`allFinal` is false, i.e. iff at least one game row of the week is not
final (an empty week is vacuously all-final); otherwise it is win exactly
when `team_abbr` is in the winners set — the non-null, non-empty
`winner_abbr` values of the week's (all final) games — and loss otherwise. -/
theorem c2_grading_rule (games : List GameRow) (p : Pick) :
    (gradePick games p = .pending ↔ allFinalOf games = false) ∧
    (allFinalOf games = true →
      ((gradePick games p = .win ↔ (winnersOf games).contains p.team_abbr = true) ∧
       (gradePick games p = .loss ↔ (winnersOf games).contains p.team_abbr = false))) := by
  unfold gradePick
  cases h : allFinalOf games <;>
    cases hc : (winnersOf games).contains p.team_abbr <;>
      simp [h, hc]

/-- Witness for C2 at a concrete input: one final game won by KC, a pick
on KC; `allFinal` holds and the result is win. -/
theorem c2_grading_rule_witness :
    gradePick [{ season_year := 2025, week_number := 5, provider := "espn", game_id := "g1"
                 home_abbr := "KC", away_abbr := "SF", kickoff_time := 100
                 status := .final, home_score := some 24, away_score := some 20
                 winner_abbr := some "KC" }] ⟨"u1", 5, 1, "KC"⟩ = .win :=
  ((c2_grading_rule
      [{ season_year := 2025, week_number := 5, provider := "espn", game_id := "g1"
         home_abbr := "KC", away_abbr := "SF", kickoff_time := 100
         status := .final, home_score := some 24, away_score := some 20
         winner_abbr := some "KC" }] ⟨"u1", 5, 1, "KC"⟩).2 (by decide)).1.mpr (by decide)

/-- C2 counterexample: with zero game rows and one pick, the source grades
the pick loss, while the claim's reading (`allFinal` requires at least one
game) demands pending. -/
theorem c2_counterexample :
    gradePick [] ⟨"u1", 5, 1, "KC"⟩ = .loss ∧
    gradePickClaim [] ⟨"u1", 5, 1, "KC"⟩ = .pending := by decide

/-! ## Claim C3 — grading writes

The source never deletes from `pick_results`: it only upserts the computed
rows (and skips the write entirely when no picks exist), so stale rows for
picks that no longer exist survive a grading pass.  Idempotence on
unchanged games/picks does hold. -/

/-- C3 counterexample: one stale stored result, no current picks — the
grading pass leaves the stale row, while the claimed full replace would
store the empty computed set. -/
theorem c3_counterexample :
    gradeWrite [⟨"u9", 1, "KC", .win⟩] [] [] = [⟨"u9", 1, "KC", .win⟩] ∧
    gradeWriteClaim [⟨"u9", 1, "KC", .win⟩] [] [] = [] := by decide

/-- C3 (corrected, amended form): a grading pass upserts the computed set
keyed by (user, slot) without deleting old Pick Results — any stored row
whose key is not among the current picks survives — and, when the picks'
(user, slot) keys are distinct (the table's uniqueness), running the pass
twice on unchanged games and picks yields the same stored set as once. -/
theorem c3_upsert_only_idempotent (stored : List PickResultRow) (games : List GameRow)
    (picks : List Pick)
    (hnd : (picks.map (fun p => (p.user_id, p.slot))).Nodup) :
    gradeWrite (gradeWrite stored games picks) games picks = gradeWrite stored games picks ∧
    ∀ x ∈ stored, (∀ p ∈ picks, (p.user_id, p.slot) ≠ prKey x) →
      x ∈ gradeWrite stored games picks := by
  unfold gradeWrite
  cases picks with
  | nil => simp
  | cons q qs =>
    have hlen : ((q :: qs).map (resultRow games)).length > 0 := by simp
    simp only [if_pos hlen]
    have hkeys : ((q :: qs).map (resultRow games)).map prKey =
        (q :: qs).map (fun p => (p.user_id, p.slot)) := by
      rw [List.map_map]
      rfl
    constructor
    · exact upsertBy_idem prKey stored ((q :: qs).map (resultRow games)) (hkeys ▸ hnd)
    · intro x hx hne
      refine mem_upsertBy_of_ne prKey _ stored x hx ?_
      intro r hr
      rcases List.mem_map.mp hr with ⟨p, hp, hpr⟩
      have : prKey r = (p.user_id, p.slot) := by rw [← hpr]; rfl
      rw [this]
      exact hne p hp

/-- Witness for C3 at a concrete input: one stale row of another user, one
pick of user u1 with distinct keys. -/
theorem c3_upsert_only_idempotent_witness :
    gradeWrite (gradeWrite [⟨"u9", 1, "KC", .win⟩] [] [⟨"u1", 5, 1, "SF"⟩]) [] [⟨"u1", 5, 1, "SF"⟩] =
      gradeWrite [⟨"u9", 1, "KC", .win⟩] [] [⟨"u1", 5, 1, "SF"⟩] ∧
    (⟨"u9", 1, "KC", .win⟩ : PickResultRow) ∈
      gradeWrite [⟨"u9", 1, "KC", .win⟩] [] [⟨"u1", 5, 1, "SF"⟩] :=
  ⟨(c3_upsert_only_idempotent [⟨"u9", 1, "KC", .win⟩] [] [⟨"u1", 5, 1, "SF"⟩] (by decide)).1,
   (c3_upsert_only_idempotent [⟨"u9", 1, "KC", .win⟩] [] [⟨"u1", 5, 1, "SF"⟩] (by decide)).2
     ⟨"u9", 1, "KC", .win⟩ (by decide) (by decide)⟩

/-! ## Claim C4 — lock enforcement of pick submission

Neither copy of `save` reads the clock or the week's `lock_time`; the lock
exists only in the UI (`disabled={locked || saving}` on the save button,
`disabled={locked || ...}` on the bye checkbox and selects).  A `save`
invocation at or after lock time therefore performs its store mutations
and reports success instead of rejecting with a lock error. -/

/-- C4 counterexample: a pick submission at time 1000, exactly the week's
lock time (`lockedFlag` true), still upserts both picks and reports
success — no lock error, and the store mutates. -/
theorem c4_counterexample :
    lockedFlag 1000 ({ current_week := 5, picks_required := 2, lock_time := 1000
                       user_id := "u1", wantsBye := false, byeExistsThisWeek := false
                       pick1 := "KC", pick2 := "SF" } : PageState).lock_time = true ∧
    save { current_week := 5, picks_required := 2, lock_time := 1000
           user_id := "u1", wantsBye := false, byeExistsThisWeek := false
           pick1 := "KC", pick2 := "SF" } ⟨[], []⟩ =
      (.savedPicks, ⟨[⟨"u1", 5, 1, "KC"⟩, ⟨"u1", 5, 2, "SF"⟩], []⟩) ∧
    (save { current_week := 5, picks_required := 2, lock_time := 1000
            user_id := "u1", wantsBye := false, byeExistsThisWeek := false
            pick1 := "KC", pick2 := "SF" } ⟨[], []⟩).2 ≠ ⟨[], []⟩ := by decide

/-- C4 (corrected, amended form): `save` performs no lock-time check — its
outcome and store mutations are independent of the week's `lock_time`
(and it never reads the current time), so a submission at or after lock
behaves exactly like one before lock; the only lock enforcement is the
UI disabling the save control via the `locked` flag. -/
theorem c4_save_ignores_lock (st : PageState) (store : PicksStore) (t : Int) :
    save { st with lock_time := t } store = save st store := by
  cases st
  rfl

/-! ## Claim C5 — trigger authorization

advance-week and sync-week call `mustBeCron(req)` first, but grade-week's
`POST` merely *defines* `mustBeCron` (twice — once at module level, once
nested) and never invokes it: the handler starts with `getLeagueContext()`
and proceeds to read and write the store for any caller.  The defined
guard is a clear statement of intent that the handler fails to apply. -/

/-- A games row for the C5 failing input: week 5, final, KC beat SF. -/
def c5Game : GameRow :=
  { season_year := 2025, week_number := 5, provider := "espn", game_id := "g5"
    home_abbr := "KC", away_abbr := "SF", kickoff_time := 100, status := .final
    home_score := some 24, away_score := some 20, winner_abbr := some "KC" }

/-- C5 at the failing input: a grade-week request with neither the
`x-cron-secret` nor the `x-vercel-cron` header — both cron guards (the one
the other routes use and grade-week's own unused one) reject it, yet the
grade handler runs to completion, reads the store, and writes a pick
result. -/
theorem c5_grade_runs_without_auth :
    mustBeCronOk ⟨none, none⟩ (some "topsecret") = false ∧
    gradeMustBeCronOk ⟨none, none⟩ (some "topsecret") = false ∧
    (gradePOST ⟨none, none⟩ (some "topsecret") "L1" 2025 5
        ⟨[c5Game], [⟨"u1", 5, 1, "KC"⟩], []⟩).1 = .okRes 1 true ∧
    (gradePOST ⟨none, none⟩ (some "topsecret") "L1" 2025 5
        ⟨[c5Game], [⟨"u1", 5, 1, "KC"⟩], []⟩).2.pick_results =
      [⟨"u1", 1, "KC", .win⟩] := by decide

/-! ## Claim C6 — winner invariant of synced rows

The source guards the winner computation with the provider's `completed`
flag, not with the stored `status` (which comes separately from
`mapStatus(state)`): a payload with `state:"in", completed:true` yields an
upserted row with `status = inprogress` and a non-null `winner_abbr`,
refuting the claim's "only when that row's status equals final". -/

/-- The C6 counterexample event: provider says `state:"in"` (so the row's
status maps to inprogress) yet `completed:true` with scores 10–7. -/
def c6Event : Event :=
  { id := "401"
    competitions := [{ competitors := [⟨"home", some "KC", some 10⟩, ⟨"away", some "SF", some 7⟩]
                       statusInfo := some ⟨some "in", true⟩
                       date := 500 }] }

/-- The row Game Sync builds and upserts from `c6Event`. -/
def c6Row : GameRow :=
  { season_year := 2025, week_number := 6, provider := "espn", game_id := "401"
    home_abbr := "KC", away_abbr := "SF", kickoff_time := 500, status := .inprogress
    home_score := some 10, away_score := some 7, winner_abbr := some "KC" }

/-- C6 counterexample: Game Sync upserts a row whose status is not final
but whose winner_abbr is non-null. -/
theorem c6_counterexample :
    espnRows "espn" 2025 6 [c6Event] = [c6Row] ∧
    (syncGamesInline (.ok [c6Event]) [] 2025 6).2 = [c6Row] ∧
    c6Row.status ≠ .final ∧
    c6Row.winner_abbr = some "KC" := by decide

/-- C6 (corrected, amended form): every row Game Sync builds satisfies —
winner_abbr is non-null only when the provider marked the competition
completed and both scores are present and differ; on equal scores (or any
missing score) winner_abbr is null.  The gate is the provider's
`completed` flag, not the row's status. -/
theorem c6_sync_winner_invariant (provider : String) (season week : Nat)
    (events : List Event) (row : GameRow)
    (hmem : row ∈ espnRows provider season week events) :
    (row.home_score = row.away_score → row.winner_abbr = none) ∧
    (∀ t, row.winner_abbr = some t →
      (∃ hs asc, row.home_score = some hs ∧ row.away_score = some asc ∧ hs ≠ asc) ∧
      (∃ ev ∈ events, eventRow provider season week ev = some row ∧
        eventCompleted ev = true)) := by
  rcases List.mem_filterMap.mp hmem with ⟨ev, hevmem, hev⟩
  have hs := eventRow_winner_sound provider season week ev row hev
  exact ⟨hs.1, fun t ht =>
    ⟨(hs.2 t ht).1, ⟨ev, hevmem, hev, (hs.2 t ht).2.1⟩⟩⟩

/-- Witness for C6 at a concrete input: a completed final game with
distinct scores produces a row with a non-null winner, and the invariant
instantiates at it. -/
theorem c6_sync_winner_invariant_witness :
    ∃ hs asc, (⟨2025, 6, "espn", "402", "DAL", "PHI", 900, .final,
        some 31, some 17, some "DAL"⟩ : GameRow).home_score = some hs ∧
      (⟨2025, 6, "espn", "402", "DAL", "PHI", 900, .final,
        some 31, some 17, some "DAL"⟩ : GameRow).away_score = some asc ∧ hs ≠ asc :=
  ((c6_sync_winner_invariant "espn" 2025 6
      [{ id := "402"
         competitions := [{ competitors := [⟨"home", some "DAL", some 31⟩, ⟨"away", some "PHI", some 17⟩]
                            statusInfo := some ⟨some "post", true⟩
                            date := 900 }] }]
      ⟨2025, 6, "espn", "402", "DAL", "PHI", 900, .final, some 31, some 17, some "DAL"⟩
      (by decide)).2 "DAL" (by decide)).1

/-! ## Claim C7 — ties produce no winner and no win

Composes the sync invariant (a tie row carries a null winner, and any
non-null winner is one of the two team abbreviations) with the grading
rule: a pick on either team of a tied game cannot be win, provided that
team appears in no other game row of the week (a team plays at most once
per NFL week). -/

/-- C7: a final-week grading never awards win to a pick on either side of
a tied game.  `hrow` places the tied row among Game Sync's output;
`hside` is the sync-invariant hypothesis on the other stored rows (their
winner, if any, is one of their own two teams); `huniq` says the picked
team appears in no other row of the week. -/
theorem c7_tie_never_wins (provider : String) (season week : Nat) (ev : Event)
    (g0 : GameRow) (games : List GameRow) (pk : Pick)
    (hrow : eventRow provider season week ev = some g0)
    (htie : g0.home_score = g0.away_score)
    (hmem : g0 ∈ games)
    (hside : ∀ g ∈ games, ∀ t, g.winner_abbr = some t →
      t = g.home_abbr ∨ t = g.away_abbr)
    (hteam : pk.team_abbr = g0.home_abbr ∨ pk.team_abbr = g0.away_abbr)
    (huniq : ∀ g ∈ games, g ≠ g0 →
      pk.team_abbr ≠ g.home_abbr ∧ pk.team_abbr ≠ g.away_abbr)
    (hfinal : allFinalOf games = true) :
    g0.winner_abbr = none ∧ gradePick games pk ≠ .win := by
  have hnone : g0.winner_abbr = none :=
    (eventRow_winner_sound provider season week ev g0 hrow).1 htie
  refine ⟨hnone, fun hwin => ?_⟩
  unfold gradePick at hwin
  rw [hfinal] at hwin
  simp only [if_true] at hwin
  have hmemw : pk.team_abbr ∈ winnersOf games := by
    by_contra hc
    have hcont : (winnersOf games).contains pk.team_abbr = false := by
      simpa using hc
    rw [hcont] at hwin
    simp at hwin
  rcases List.mem_filterMap.mp hmemw with ⟨g, hg, hgw⟩
  have hgwin : g.winner_abbr = some pk.team_abbr := truthyWinner_eq_some hgw
  by_cases hgeq : g = g0
  · subst hgeq
    rw [hnone] at hgwin
    exact Option.noConfusion hgwin
  · have := huniq g hg hgeq
    rcases hside g hg pk.team_abbr hgwin with h1 | h1
    · exact this.1 h1
    · exact this.2 h1

/-- Witness for C7 at a concrete input: SEA–SF tie 20–20, one other final
game, a pick on SEA is not graded win. -/
theorem c7_tie_never_wins_witness :
    (⟨2025, 5, "espn", "777", "SEA", "SF", 300, .final,
       some 20, some 20, none⟩ : GameRow).winner_abbr = none ∧
    gradePick
      [⟨2025, 5, "espn", "777", "SEA", "SF", 300, .final, some 20, some 20, none⟩,
       ⟨2025, 5, "espn", "778", "KC", "DEN", 350, .final, some 27, some 3, some "KC"⟩]
      ⟨"u1", 5, 1, "SEA"⟩ ≠ .win :=
  c7_tie_never_wins "espn" 2025 5
    { id := "777"
      competitions := [{ competitors := [⟨"home", some "SEA", some 20⟩, ⟨"away", some "SF", some 20⟩]
                         statusInfo := some ⟨some "post", true⟩
                         date := 300 }] }
    ⟨2025, 5, "espn", "777", "SEA", "SF", 300, .final, some 20, some 20, none⟩
    [⟨2025, 5, "espn", "777", "SEA", "SF", 300, .final, some 20, some 20, none⟩,
     ⟨2025, 5, "espn", "778", "KC", "DEN", 350, .final, some 27, some 3, some "KC"⟩]
    ⟨"u1", 5, 1, "SEA"⟩
    (by decide) (by decide) (by decide) (by decide) (by decide) (by decide) (by decide)

/-! ## Claim C8 — Week Sync refusal without games -/

/-- C8: an authorized Week Sync call with a league id, when no games exist
for the target (season, week): without the fallback flag it returns the
409 refusal and leaves the weeks table untouched; with the flag it creates
the config with lock_time (and reveal_time) equal to `now + 24h`
(86 400 000 ms). -/
theorem c8_sync_week_refusal (h : Headers) (secret : Option String)
    (body : SyncWeekBody) (lg : LeagueRow) (games : List GameRow)
    (weeks : List WeekRow) (now : Int)
    (hauth : mustBeCronOk h secret = true)
    (hlid : jsTrim body.league_id ≠ "")
    (hempty : weekGames games (body.season_year.getD lg.season_year)
        (body.week_number.getD lg.current_week) = []) :
    syncWeekPOST h secret body lg games weeks now =
      (if body.allow_fallback_lock then
        (SyncWeekRes.okRes
          (if body.week_number.getD lg.current_week ≥ 17 then 1 else 2)
          (now + 86400000),
         upsertBy weekKey weeks
           [{ season_year := body.season_year.getD lg.season_year
              week_number := body.week_number.getD lg.current_week
              picks_required := if body.week_number.getD lg.current_week ≥ 17 then 1 else 2
              lock_time := now + 86400000
              reveal_time := now + 86400000 }])
      else
        (SyncWeekRes.conflictRes
          "No games found for league/week; refusing to create week config.", weeks)) := by
  unfold syncWeekPOST
  rw [hauth]
  simp only [Bool.not_true, Bool.false_eq_true, if_false, if_neg hlid]
  rw [hempty]
  cases hf : body.allow_fallback_lock <;> simp

/-- Witness for C8 at concrete inputs: both the refusal branch (no flag)
and the fallback branch (flag set) at `now = 777` with an empty games
table. -/
theorem c8_sync_week_refusal_witness :
    syncWeekPOST ⟨some "1", none⟩ none ⟨"L1", none, none, false⟩ ⟨2025, 5⟩ [] [] 777 =
      (SyncWeekRes.conflictRes
        "No games found for league/week; refusing to create week config.", []) ∧
    syncWeekPOST ⟨some "1", none⟩ none ⟨"L1", none, none, true⟩ ⟨2025, 5⟩ [] [] 777 =
      (SyncWeekRes.okRes 2 86400777,
       [{ season_year := 2025, week_number := 5, picks_required := 2
          lock_time := 86400777, reveal_time := 86400777 }]) := by
  constructor
  · have hc := c8_sync_week_refusal ⟨some "1", none⟩ none ⟨"L1", none, none, false⟩
      ⟨2025, 5⟩ [] [] 777 (by decide) (by decide) (by decide)
    simpa using hc
  · have hc := c8_sync_week_refusal ⟨some "1", none⟩ none ⟨"L1", none, none, true⟩
      ⟨2025, 5⟩ [] [] 777 (by decide) (by decide) (by decide)
    simpa using hc

/-! ## Claim C9 — bye/picks mutual exclusion -/

/-- C9: assuming the page's `byeExistsThisWeek` flag reflects the store
(it is loaded from the byes table and maintained by `save`), a successful
bye submission leaves the user with no pick rows for the week, and a
successful pick submission leaves the user with no bye row for the week —
so after any successful submission the user never holds both. -/
theorem c9_bye_pick_exclusion (st : PageState) (store : PicksStore)
    (hflag : st.byeExistsThisWeek =
      store.byes.any (fun b => b.user_id == st.user_id && b.week_number == st.current_week)) :
    ((save st store).1 = .savedBye →
      (save st store).2.picks.all
        (fun p => !(p.user_id == st.user_id && p.week_number == st.current_week)) = true) ∧
    ((save st store).1 = .savedPicks →
      (save st store).2.byes.all
        (fun b => !(b.user_id == st.user_id && b.week_number == st.current_week)) = true) := by
  unfold save
  cases hwb : st.wantsBye with
  | true =>
    simp only [if_true]
    by_cases hw16 : st.current_week > 16
    · simp [hw16]
    · simp only [if_neg hw16]
      refine ⟨fun _ => ?_, fun hcontra => by simp at hcontra⟩
      simp only [List.all_eq_true]
      intro p hp
      exact (List.mem_filter.mp hp).2
  | false =>
    simp only [Bool.false_eq_true, if_false]
    have hbyes : (if st.byeExistsThisWeek then
        ({ store with byes := (store.byes.filter
            (fun b => !(b.user_id == st.user_id && b.week_number == st.current_week))) })
        else store).byes.all
        (fun b => !(b.user_id == st.user_id && b.week_number == st.current_week)) = true := by
      cases hbe : st.byeExistsThisWeek with
      | true =>
        simp only [if_true, List.all_eq_true]
        intro b hb
        exact (List.mem_filter.mp hb).2
      | false =>
        simp only [Bool.false_eq_true, if_false, List.all_eq_true]
        intro b hb
        have hany := hflag.symm
        rw [hbe] at hany
        have hx := List.any_eq_false.mp hany b hb
        rw [Bool.not_eq_true] at hx
        rw [hx]
        rfl
    by_cases h1 : jsTrim st.pick1 = ""
    · simp [h1]
    · simp only [if_neg h1]
      by_cases h2 : (st.picks_required == 2 && jsTrim st.pick2 == "") = true
      · simp [h2]
      · rw [Bool.not_eq_true] at h2
        simp only [h2, Bool.false_eq_true, if_false]
        by_cases h3 : (st.picks_required == 2 && jsTrim st.pick1 == jsTrim st.pick2) = true
        · simp [h3]
        · rw [Bool.not_eq_true] at h3
          simp only [h3, Bool.false_eq_true, if_false]
          exact ⟨fun hcontra => by simp at hcontra, fun _ => hbyes⟩

/-- Witness for C9 at a concrete input: a bye submission for week 5
deletes the user's existing pick rows for that week. -/
theorem c9_bye_pick_exclusion_witness :
    (save { current_week := 5, picks_required := 2, lock_time := 1000, user_id := "u1"
            wantsBye := true, byeExistsThisWeek := false, pick1 := "", pick2 := "" }
       ⟨[⟨"u1", 5, 1, "KC"⟩], []⟩).1 = .savedBye ∧
    (save { current_week := 5, picks_required := 2, lock_time := 1000, user_id := "u1"
            wantsBye := true, byeExistsThisWeek := false, pick1 := "", pick2 := "" }
       ⟨[⟨"u1", 5, 1, "KC"⟩], []⟩).2.picks.all
      (fun p => !(p.user_id == "u1" && p.week_number == 5)) = true :=
  ⟨by decide,
   (c9_bye_pick_exclusion
      { current_week := 5, picks_required := 2, lock_time := 1000, user_id := "u1"
        wantsBye := true, byeExistsThisWeek := false, pick1 := "", pick2 := "" }
      ⟨[⟨"u1", 5, 1, "KC"⟩], []⟩ (by decide)).1 (by decide)⟩

/-! ## Claim C10 — bye deleted before validation, not restored -/

/-- C10: in the pick path with an existing bye, when slot validation fails
(empty slot 1, or a 2-pick week with an empty slot 2 or equal slots), the
operation returns a validation error, the bye rows for the week are
already deleted (and not restored), and no pick row was written. -/
theorem c10_bye_lost_on_validation (st : PageState) (store : PicksStore)
    (hwb : st.wantsBye = false)
    (hbe : st.byeExistsThisWeek = true)
    (hv : jsTrim st.pick1 = "" ∨
      (st.picks_required = 2 ∧
        (jsTrim st.pick2 = "" ∨ jsTrim st.pick1 = jsTrim st.pick2))) :
    (∃ m, (save st store).1 = .errRes m) ∧
    (save st store).2.byes = store.byes.filter
      (fun b => !(b.user_id == st.user_id && b.week_number == st.current_week)) ∧
    (save st store).2.picks = store.picks := by
  unfold save
  rw [hwb, hbe]
  simp only [Bool.false_eq_true, if_false, if_true]
  by_cases h1 : jsTrim st.pick1 = ""
  · simp [h1]
  · simp only [if_neg h1]
    rcases hv with hv1 | ⟨hreq, hv2⟩
    · exact absurd hv1 h1
    · rcases hv2 with hv2 | hv2
      · have h2 : (st.picks_required == 2 && jsTrim st.pick2 == "") = true := by
          simp [hreq, hv2]
        simp [h2]
      · by_cases h2 : (st.picks_required == 2 && jsTrim st.pick2 == "") = true
        · simp [h2]
        · rw [Bool.not_eq_true] at h2
          have h3 : (st.picks_required == 2 && jsTrim st.pick1 == jsTrim st.pick2) = true := by
            simp [hreq, hv2]
          simp [h2, h3]

/-- Witness for C10 at a concrete input: user u1 has a bye for week 5 and
submits the pick path with an empty slot 1 — the validation error comes
back with the bye already gone and the picks table untouched. -/
theorem c10_bye_lost_on_validation_witness :
    (∃ m, (save { current_week := 5, picks_required := 2, lock_time := 1000, user_id := "u1"
                  wantsBye := false, byeExistsThisWeek := true, pick1 := "", pick2 := "SF" }
        ⟨[], [⟨"u1", 5⟩]⟩).1 = .errRes m) ∧
    (save { current_week := 5, picks_required := 2, lock_time := 1000, user_id := "u1"
            wantsBye := false, byeExistsThisWeek := true, pick1 := "", pick2 := "SF" }
       ⟨[], [⟨"u1", 5⟩]⟩).2.byes =
      ([⟨"u1", 5⟩] : List ByeRow).filter (fun b => !(b.user_id == "u1" && b.week_number == 5)) ∧
    (save { current_week := 5, picks_required := 2, lock_time := 1000, user_id := "u1"
            wantsBye := false, byeExistsThisWeek := true, pick1 := "", pick2 := "SF" }
       ⟨[], [⟨"u1", 5⟩]⟩).2.picks = [] :=
  c10_bye_lost_on_validation
    { current_week := 5, picks_required := 2, lock_time := 1000, user_id := "u1"
      wantsBye := false, byeExistsThisWeek := true, pick1 := "", pick2 := "SF" }
    ⟨[], [⟨"u1", 5⟩]⟩ (by decide) (by decide) (Or.inl (by decide))

/-! ## Claim C1 — Advance increments only behind all its gates -/

/-- A successful inline game sync upserts at least one row. -/
theorem syncGamesInline_ok_upserted (f : FetchResult) (g : List GameRow) (s w : Nat)
    (h : (syncGamesInline f g s w).1.ok = true) :
    1 ≤ (syncGamesInline f g s w).1.upserted := by
  unfold syncGamesInline at h ⊢
  match f with
  | .fail st m => simp at h
  | .ok events =>
    by_cases he : (espnRows "espn" s w events).isEmpty
    · simp [he] at h
    · simp only [he, Bool.false_eq_true, if_false] at h ⊢
      have : espnRows "espn" s w events ≠ [] := by
        intro hnil
        rw [hnil] at he
        exact he rfl
      have hpos : 0 < (espnRows "espn" s w events).length :=
        List.length_pos.mpr this
      omega

/-- C1: whenever an Advance invocation changes the league's current_week,
all the gates held — for the current week `w` at least one game row
existed and every one was final, the provider check returned at least one
event for `w+1`, the inline Game Sync for `w+1` succeeded upserting at
least one row, the inline Week Sync for `w+1` succeeded — and the change
is exactly an increment from `w` to `w+1`.  Contrapositively, if any gate
fails, current_week is left unchanged. -/
theorem c1_advance_gated (h : Headers) (secret : Option String) (league_id : String)
    (st : AdvanceState) (provCheck provSync : FetchResult)
    (hch : (advanceWeek h secret league_id st provCheck provSync).2.league.current_week ≠
      st.league.current_week) :
    (weekGames st.games st.league.season_year st.league.current_week ≠ [] ∧
     allFinalOf (weekGames st.games st.league.season_year st.league.current_week) = true) ∧
    (∃ events, provCheck = .ok events ∧ events ≠ []) ∧
    ((syncGamesInline provSync st.games st.league.season_year
        (st.league.current_week + 1)).1.ok = true ∧
     1 ≤ (syncGamesInline provSync st.games st.league.season_year
        (st.league.current_week + 1)).1.upserted) ∧
    (syncWeekInline
        (syncGamesInline provSync st.games st.league.season_year
          (st.league.current_week + 1)).2
        st.weeks st.league.season_year (st.league.current_week + 1)).1.ok = true ∧
    (advanceWeek h secret league_id st provCheck provSync).2.league.current_week =
      st.league.current_week + 1 := by
  unfold advanceWeek at hch ⊢
  by_cases hauth : mustBeCronOk h secret = true
  case neg =>
    rw [Bool.not_eq_true] at hauth
    simp [hauth] at hch
  rw [hauth] at hch ⊢
  simp only [Bool.not_true, Bool.false_eq_true, if_false] at hch ⊢
  by_cases hlid : jsTrim league_id = ""
  · simp [hlid] at hch
  rw [if_neg hlid] at hch ⊢
  by_cases h18 : st.league.current_week ≥ 18
  · simp [h18] at hch
  rw [if_neg h18] at hch ⊢
  by_cases hfin : (!(weekGames st.games st.league.season_year st.league.current_week).isEmpty &&
      (weekGames st.games st.league.season_year st.league.current_week).all
        (fun g => g.status == GStatus.final)) = true
  case neg =>
    rw [Bool.not_eq_true] at hfin
    simp [hfin] at hch
  rw [hfin] at hch ⊢
  simp only [Bool.not_true, Bool.false_eq_true, if_false] at hch ⊢
  rcases Bool.and_eq_true_iff.mp hfin with ⟨hne, hall⟩
  have hnonnil : weekGames st.games st.league.season_year st.league.current_week ≠ [] := by
    intro hnil
    rw [hnil] at hne
    simp at hne
  cases provCheck with
  | fail s m => dsimp only at hch; exact absurd rfl hch
  | ok events =>
    dsimp only at hch ⊢
    by_cases hev : events.isEmpty
    · simp [hev] at hch
    rw [if_neg hev] at hch
    by_cases hsg : (syncGamesInline provSync st.games st.league.season_year
        (st.league.current_week + 1)).1.ok = true
    case neg =>
      rw [Bool.not_eq_true] at hsg
      simp [hsg] at hch
    rw [hsg] at hch ⊢
    simp only [Bool.not_true, Bool.false_eq_true, if_false] at hch ⊢
    by_cases hsw : (syncWeekInline
        (syncGamesInline provSync st.games st.league.season_year
          (st.league.current_week + 1)).2
        st.weeks st.league.season_year (st.league.current_week + 1)).1.ok = true
    case neg =>
      rw [Bool.not_eq_true] at hsw
      simp [hsw] at hch
    rw [hsw] at hch ⊢
    simp only [Bool.not_true, Bool.false_eq_true, if_false] at hch ⊢
    refine ⟨⟨hnonnil, hall⟩, ⟨events, rfl, ?_⟩, ⟨?_, ?_⟩, ?_, ?_⟩
    · intro hnil
      rw [hnil] at hev
      exact hev rfl
    · simp [hsg]
    · exact syncGamesInline_ok_upserted provSync st.games st.league.season_year
        (st.league.current_week + 1) hsg
    · simp [hsw]
    · rw [if_neg hev]

/-- Witness for C1 at a concrete input: week-5 games all final, the
provider has a week-6 event, the inline sync upserts it, the week config
derives — and the league pointer moves from 5 to 6. -/
theorem c1_advance_gated_witness :
    (advanceWeek ⟨some "1", none⟩ none "L1"
        { league := ⟨2025, 5⟩
          games := [⟨2025, 5, "espn", "g5", "KC", "SF", 100, .final,
            some 24, some 20, some "KC"⟩]
          weeks := [] }
        (.ok [{ id := "402"
                competitions := [{ competitors := [⟨"home", some "DAL", none⟩, ⟨"away", some "PHI", none⟩]
                                   statusInfo := some ⟨some "pre", false⟩
                                   date := 900 }] }])
        (.ok [{ id := "402"
                competitions := [{ competitors := [⟨"home", some "DAL", none⟩, ⟨"away", some "PHI", none⟩]
                                   statusInfo := some ⟨some "pre", false⟩
                                   date := 900 }] }])).2.league.current_week = 5 + 1 :=
  (c1_advance_gated ⟨some "1", none⟩ none "L1"
    { league := ⟨2025, 5⟩
      games := [⟨2025, 5, "espn", "g5", "KC", "SF", 100, .final,
        some 24, some 20, some "KC"⟩]
      weeks := [] }
    (.ok [{ id := "402"
            competitions := [{ competitors := [⟨"home", some "DAL", none⟩, ⟨"away", some "PHI", none⟩]
                               statusInfo := some ⟨some "pre", false⟩
                               date := 900 }] }])
    (.ok [{ id := "402"
            competitions := [{ competitors := [⟨"home", some "DAL", none⟩, ⟨"away", some "PHI", none⟩]
                               statusInfo := some ⟨some "pre", false⟩
                               date := 900 }] }])
    (by decide)).2.2.2.2

end Pickem
